import Mathlib

/-!
Verification of the BugTrace telemetry core against its specification.

The definitions below are a shallow embedding of the repository's code:

* `BugTrace.accept`, `BugTrace.invalidate`, `BugTrace.handleErrorCaptured`,
  `BugTrace.handleTabUpdated` embed the background service worker
  (`background.js`): the `ERROR_CAPTURED` message handler with its 200-entry
  bound, and the `chrome.tabs.onUpdated` listener that clears a tab's errors.
* `BugTrace.fetchCapture` and `BugTrace.xhrCapture` embed the network
  interception of `content-script.js`.
* `BugTrace.getSuggestions` embeds `SuggestionService.getSuggestions`
  (three guarded, independently failure-isolated source calls, then
  `slice(0, maxResults)`), with the `options.maxResults || 10` and
  `options.sources || [...]` defaulting.
* `BugTrace.extractSearchQuery` embeds `SuggestionService.extractSearchQuery`,
  including a faithful model of each JavaScript regex replacement
  (leftmost match, greedy quantifiers, global flag).
* `BugTrace.scanCodeForVulnerabilities` / `BugTrace.scanPage` embed the
  content-script security scanner, and `BugTrace.scanForVulnerabilities`
  embeds the background scanner with its match counts.
* `BugTrace.mirrorUpdate` embeds the localStorage mirror of
  `AdvancedErrorCapture.captureError`, and `BugTrace.wrappedConsoleError`
  embeds the exception behavior of the console wrapper around it.

Strings from the JavaScript are modelled as `List Char`; machine work on
them (regex scans) is implemented by structurally recursive scanners that
reproduce the JavaScript regex semantics for the concrete patterns in the
source: leftmost match, greedy quantifiers with backtracking, `g`-flag
continuation after each match, `i`-flag ASCII case folding, and `.`/`\s`/
`\w`/`\d` character classes.
-/

namespace BugTrace

/-- Severity values used by the capture agent. -/
inductive Sev where
  | info | warning | error | critical
  deriving DecidableEq, Repr

/-- A stored error record, as kept by the background aggregator
(`background.js`): the captured payload plus the sender tab id.
`tabId` is `none` when `sender.tab?.id` was `undefined`. -/
structure StoredError where
  tabId : Option Nat
  severity : Sev
  message : String
  deriving DecidableEq, Repr

/-- `accept`: the `ERROR_CAPTURED` branch of the background message listener.
`globalErrors.push(e)` followed by
`if (globalErrors.length > 200) globalErrors = globalErrors.slice(-200)`;
`slice(-200)` keeps the last 200 entries. -/
def accept (buf : List StoredError) (e : StoredError) : List StoredError :=
  let b := buf ++ [e]
  if 200 < b.length then b.drop (b.length - 200) else b

/-- `invalidate`: the `chrome.tabs.onUpdated` body for `status === 'loading'`:
`globalErrors = globalErrors.filter(error => error.tabId !== tabId)`. -/
def invalidate (tabId : Nat) (buf : List StoredError) : List StoredError :=
  buf.filter (fun e => e.tabId ≠ some tabId)

/-- Messages the background worker can emit over the relay. -/
inductive BMsg where
  | errorUpdate (errors : List StoredError)
  deriving DecidableEq, Repr

/-- The full `ERROR_CAPTURED` handler: append (with the 200 cap) and then
send one `ERROR_UPDATE` broadcast carrying the whole buffer. -/
def handleErrorCaptured (buf : List StoredError) (e : StoredError) :
    List StoredError × List BMsg :=
  let b := accept buf e
  (b, [BMsg.errorUpdate b])

/-- The full `chrome.tabs.onUpdated` handler: on `status === 'loading'` it
filters the buffer; it sends no message at all. -/
def handleTabUpdated (buf : List StoredError) (tabId : Nat) (status : String) :
    List StoredError × List BMsg :=
  if status = "loading" then (invalidate tabId buf, []) else (buf, [])

/-! ### Network-response severity mapping (`content-script.js`,
`setupNetworkInterception`) -/

/-- Outcome of a page `fetch` call as seen by the wrapper: either a response
with an HTTP status, or a thrown transport-level failure with no response. -/
inductive FetchOutcome where
  | response (status : Nat)
  | failure
  deriving DecidableEq, Repr

/-- `response.ok` per the Fetch standard: status in the range [200, 299]. -/
def responseOk (status : Nat) : Bool :=
  200 ≤ status ∧ status ≤ 299

/-- Severity the fetch wrapper attaches, if it captures a signal at all:
`if (!response.ok && response.status >= 400)` capture with
`response.status >= 500 ? 'error' : 'warning'`; the `catch` branch always
captures with `'error'`. -/
def fetchCapture (o : FetchOutcome) : Option Sev :=
  match o with
  | .response st =>
      if ¬ responseOk st ∧ 400 ≤ st then
        some (if 500 ≤ st then Sev.error else Sev.warning)
      else none
  | .failure => some Sev.error

/-- The XMLHttpRequest wrapper's capture at `readyState === 4`:
`if (xhr.status >= 400)` capture with
`xhr.status >= 500 ? 'error' : 'warning'`. -/
def xhrCapture (status : Nat) : Option Sev :=
  if 400 ≤ status then
    some (if 500 ≤ status then Sev.error else Sev.warning)
  else none

/-! ### Suggestion fan-out (`SuggestionService.getSuggestions`) -/

/-- Knowledge-source identifiers handled by `getSuggestions`. -/
inductive Src where
  | stackoverflow | github | mdn
  deriving DecidableEq, Repr

/-- A normalized knowledge-source result (the fields the fan-out logic
passes through; the claims treat suggestions as opaque records). -/
structure Suggestion where
  id : String
  source : Src
  title : String
  deriving DecidableEq, Repr

/-- `options.sources || ['stackoverflow', 'github']`: only `undefined`
selects the default (an explicitly given empty array is truthy in JS). -/
def resolveSources (s : Option (List Src)) : List Src :=
  match s with
  | none => [Src.stackoverflow, Src.github]
  | some l => l

/-- `options.maxResults || 10`: both `undefined` and an explicit `0` are
falsy in JS, so both fall back to 10. -/
def resolveMax (m : Option Nat) : Nat :=
  match m with
  | none => 10
  | some 0 => 10
  | some n => n

/-- One knowledge-source call: either the normalized result list, or a
thrown exception (a network failure, or the `Error` thrown on a non-success
response status). -/
def SourceCall : Type := Src → Except Unit (List Suggestion)

/-- `SuggestionService.getSuggestions`: one guarded `try`/`catch` block per
source in the fixed order stackoverflow, github, mdn; a caught exception
contributes nothing; finally `suggestions.slice(0, maxResults)`. -/
def getSuggestions (sources : Option (List Src)) (maxResults : Option Nat)
    (call : SourceCall) : List Suggestion :=
  let srcs := resolveSources sources
  let m := resolveMax maxResults
  let s1 := if srcs.contains Src.stackoverflow then
      match call Src.stackoverflow with
      | .ok l => l
      | .error _ => []
    else []
  let s2 := if srcs.contains Src.github then
      match call Src.github with
      | .ok l => l
      | .error _ => []
    else []
  let s3 := if srcs.contains Src.mdn then
      match call Src.mdn with
      | .ok l => l
      | .error _ => []
    else []
  (s1 ++ s2 ++ s3).take m

/-! ### The page-visible localStorage mirror and the capture path
(`AdvancedErrorCapture.captureError`, `content-script.js`) -/

/-- One mirror step of `captureError`: `errors.unshift(error)` (newest
first), then `if (errors.length > 50) errors.splice(50)` (keep the first 50),
then write back under the key `bugtrace-errors`. -/
def mirrorUpdate (prev : List StoredError) (e : StoredError) :
    List StoredError :=
  let l := e :: prev
  if 50 < l.length then l.take 50 else l

/-- The synchronous tail of `captureError` after the fire-and-forget
`chrome.runtime.sendMessage(...).catch(...)`:
`const stored = localStorage.getItem('bugtrace-errors')` followed by
`const errors = stored ? JSON.parse(stored) : []` — there is no `try`/`catch`
around this, so when `stored` is present but `JSON.parse` throws, the
exception escapes `captureError`. `parse` is the host `JSON.parse`
collaborator, returning `.error` exactly when it would throw. -/
def captureErrorRun (stored : Option String)
    (parse : String → Except Unit (List StoredError)) (e : StoredError) :
    Except Unit (List StoredError) :=
  match stored with
  | none => .ok (mirrorUpdate [] e)
  | some s =>
      match parse s with
      | .ok prev => .ok (mirrorUpdate prev e)
      | .error ex => .error ex

/-- The `console.error` wrapper installed by `setupErrorCapture`:
`originalError.apply(console, args)` always runs first (recorded as the
first component), then `this.captureError(...)` runs with no surrounding
`try`/`catch`, so an exception thrown inside it escapes into the page frame
that called `console.error` (second component). -/
def wrappedConsoleError (stored : Option String)
    (parse : String → Except Unit (List StoredError)) (args : String) :
    String × Except Unit (List StoredError) :=
  (args, captureErrorRun stored parse ⟨none, Sev.error, args⟩)

/-! ### Character classes and scanners for the JavaScript regexes -/

/-- JS `\s` (the whitespace also removed by `String.prototype.trim`),
restricted to the standard ASCII whitespace characters. -/
def isSpaceCh (c : Char) : Bool :=
  c = ' ' ∨ c = '\t' ∨ c = '\n' ∨ c = '\r' ∨ c = '\x0b' ∨ c = '\x0c'

/-- JS `\d`. -/
def isDigitCh (c : Char) : Bool :=
  '0' ≤ c ∧ c ≤ '9'

/-- JS `\w` = `[A-Za-z0-9_]`. -/
def isWordCh (c : Char) : Bool :=
  ('a' ≤ c ∧ c ≤ 'z') ∨ ('A' ≤ c ∧ c ≤ 'Z') ∨ isDigitCh c ∨ c = '_'

/-- Line terminators that JS `.` does not match. -/
def isNlCh (c : Char) : Bool :=
  c = '\n' ∨ c = '\r' ∨ c = '\u2028' ∨ c = '\u2029'

/-- Case-insensitive prefix test (`i` flag, ASCII folding); `pat` is given
in lowercase. -/
def ciPrefix : List Char → List Char → Bool
  | [], _ => true
  | _ :: _, [] => false
  | p :: ps, c :: cs => c.toLower = p && ciPrefix ps cs

/-- Index of the last occurrence of `a` in `l`, if any. -/
def lastIdxOf (a : Char) : List Char → Option Nat
  | [] => none
  | c :: cs =>
      match lastIdxOf a cs with
      | some k => some (k + 1)
      | none => if c = a then some 0 else none

/-- A matcher tries a regex at the start of its input and reports how many
characters a (necessarily nonempty) successful match consumes. -/
def Matcher : Type := List Char → Option {n : Nat // 0 < n}

/-- `regex.test(s)`: does the pattern match at some position?  Tries every
start position left to right. -/
def scanTest (m : Matcher) : List Char → Bool
  | [] => false
  | c :: cs => (m (c :: cs)).isSome || scanTest m cs

/-- `s.match(regex_g).length`, fuel-indexed: the number of matches found by
a global scan (leftmost match, then continue immediately after it).  Every
match consumes at least one character, so fuel `l.length` is never
exhausted; the fuel only makes the recursion structural. -/
def scanCountF (m : Matcher) : Nat → List Char → Nat
  | _, [] => 0
  | 0, _ => 0
  | fuel + 1, c :: cs =>
      match m (c :: cs) with
      | some n => 1 + scanCountF m fuel ((c :: cs).drop n.1)
      | none => scanCountF m fuel cs

/-- `s.match(regex_g).length`. -/
def scanCount (m : Matcher) (l : List Char) : Nat :=
  scanCountF m l.length l

/-- `s.replace(regex_g, '')`, fuel-indexed: a global scan deleting every
match; fuel as in `scanCountF`. -/
def scanRemoveF (m : Matcher) : Nat → List Char → List Char
  | _, [] => []
  | 0, l => l
  | fuel + 1, c :: cs =>
      match m (c :: cs) with
      | some n => scanRemoveF m fuel ((c :: cs).drop n.1)
      | none => c :: scanRemoveF m fuel cs

/-- `s.replace(regex_g, '')`. -/
def scanRemove (m : Matcher) (l : List Char) : List Char :=
  scanRemoveF m l.length l

/-- Descending search: the largest `k` with `1 ≤ k ≤ n` and `pred k`, the
way a greedy quantifier backtracks from the longest candidate. -/
def findTop (pred : Nat → Bool) : Nat → Option Nat
  | 0 => none
  | n + 1 => if pred (n + 1) then some (n + 1) else findTop pred n

/-! ### The query extractor (`SuggestionService.extractSearchQuery`) -/

/-- `String.prototype.trim()`. -/
def trimL (s : List Char) : List Char :=
  ((s.dropWhile isSpaceCh).reverse.dropWhile isSpaceCh).reverse

/-- Matcher for `/at .+:\d+:\d+/` at the current position: literal `at `,
then a greedy nonempty run of non-newline characters, then `:` digits `:`
digits.  The greedy `.+` backtracks to the largest split point `p` (the
position of the first `:` of the suffix) at which the digit groups
complete; each `\d+` is a maximal digit run. -/
def matchAtLoc : Matcher := fun cs =>
  if ['a', 't', ' '].isPrefixOf cs then
    let L := (cs.drop 3).takeWhile (fun c => ¬ isNlCh c)
    let ok := fun p =>
      L.getD p ' ' = ':' &&
        (let t := L.drop (p + 1)
         let d1 := t.takeWhile isDigitCh
         !d1.isEmpty && ((t.drop d1.length).headD ' ' = ':') &&
           !((t.drop (d1.length + 1)).takeWhile isDigitCh).isEmpty)
    match findTop ok (L.length - 1) with
    | some p =>
        let t := L.drop (p + 1)
        let d1 := t.takeWhile isDigitCh
        let d2 := (t.drop (d1.length + 1)).takeWhile isDigitCh
        some ⟨3 + p + 1 + d1.length + 1 + d2.length, by omega⟩
    | none => none
  else none

/-- Matcher for `/\(.*\)/` at the current position: `(`, then greedy `.*`
(no newline), then `)` — i.e. up to the last `)` on the same line. -/
def matchParen : Matcher := fun cs =>
  match cs with
  | '(' :: rest =>
      let seg := rest.takeWhile (fun c => ¬ isNlCh c)
      match lastIdxOf ')' seg with
      | some k => some ⟨1 + k + 1, by omega⟩
      | none => none
  | _ => none

/-- Matcher for `/https?:\/\/[^\s]+/` at the current position: greedy `s?`
first, then a nonempty greedy run of non-whitespace. -/
def matchUrl : Matcher := fun cs =>
  if ['h', 't', 't', 'p', 's', ':', '/', '/'].isPrefixOf cs then
    let run := (cs.drop 8).takeWhile (fun c => ¬ isSpaceCh c)
    if run.isEmpty then none else some ⟨8 + run.length, by omega⟩
  else if ['h', 't', 't', 'p', ':', '/', '/'].isPrefixOf cs then
    let run := (cs.drop 7).takeWhile (fun c => ¬ isSpaceCh c)
    if run.isEmpty then none else some ⟨7 + run.length, by omega⟩
  else none

/-- `.replace(/at .+:\d+:\d+/g, '')`. -/
def removeAtLocs : List Char → List Char := scanRemove matchAtLoc

/-- `.replace(/\(.*\)/g, '')`. -/
def removeParens : List Char → List Char := scanRemove matchParen

/-- `.replace(/https?:\/\/[^\s]+/g, '')`. -/
def removeUrls : List Char → List Char := scanRemove matchUrl

/-- `.replace(/\d+/g, '')`: a global deletion of maximal digit runs deletes
exactly the digit characters. -/
def removeDigits (s : List Char) : List Char :=
  s.filter (fun c => ¬ isDigitCh c)

/-- `.replace(/['"]/g, '')`. -/
def removeQuotes (s : List Char) : List Char :=
  s.filter (fun c => ¬ (c = '\'' ∨ c = '"'))

/-- Steps 2–6 of the extractor: the five chained `replace` calls, in source
order. -/
def clean (s : List Char) : List Char :=
  removeQuotes (removeDigits (removeUrls (removeParens (removeAtLocs s))))

/-- `"Error"` as a character list. -/
def EL : List Char := ['E', 'r', 'r', 'o', 'r']

/-- `query.match(/^(\w+Error|Error)/)`: the `\w+` is greedy, so the first
alternative matches the prefix ending at the last occurrence of `Error`
inside the leading `\w`-run that has at least one word character before it;
otherwise the literal `Error` alternative is tried at position 0. -/
def matchErrPrefix (s : List Char) : Option (List Char) :=
  match findTop (fun k => ((s.takeWhile isWordCh).drop k).take 5 == EL)
      (s.takeWhile isWordCh).length with
  | some k => some ((s.takeWhile isWordCh).take (k + 5))
  | none => if (s.takeWhile isWordCh).take 5 == EL then some EL else none

/-- `query.replace(errorType, '')` for a plain-string pattern: remove the
first occurrence. -/
def removeFirst (pat : List Char) : List Char → List Char
  | [] => []
  | c :: cs =>
      if pat.isPrefixOf (c :: cs) then (c :: cs).drop pat.length
      else c :: removeFirst pat cs

/-- Step 8 of the extractor: if the cleaned query starts with an error-type
token, rebuild as `` `${errorType} ${query.replace(errorType, '').trim()}` ``. -/
def pull (s : List Char) : List Char :=
  match matchErrPrefix s with
  | none => s
  | some et => et ++ ' ' :: trimL (removeFirst et s)

/-- The error kinds the capture agent passes as `type` (the fallback query
when extraction empties the message). -/
inductive ErrKind where
  | console | runtime | promise | network | react | performance | security
  deriving DecidableEq, Repr

/-- The `type` string of each kind. -/
def kindChars : ErrKind → List Char
  | .console => "console".toList
  | .runtime => "runtime".toList
  | .promise => "promise".toList
  | .network => "network".toList
  | .react => "react".toList
  | .performance => "performance".toList
  | .security => "security".toList

/-- `SuggestionService.extractSearchQuery`, applied to an entry with message
`message` and `type` `etype`: the five cleaning replaces, `trim`, the
error-type pull, the 100-character truncation (with a `trim` after it), and
the `query || error.type` fallback. -/
def extractSearchQuery (message : List Char) (etype : ErrKind) : List Char :=
  let q1 := trimL (clean message)
  let q2 := pull q1
  let q3 := if 100 < q2.length then trimL (q2.take 100) else q2
  if q3 = [] then kindChars etype else q3

/-- Truncation-free side condition used by the amended idempotence claim:
the pulled query of the first pass is at most 100 characters, so step 9
never fires. -/
abbrev noTruncation (message : List Char) : Prop :=
  (pull (trimL (clean message))).length ≤ 100

/-! ### Security scanners -/

/-- A content-script detector: its pattern matcher plus the fixed metadata
it reports (`scanCodeForVulnerabilities` in `content-script.js`). -/
structure Detector where
  test : List Char → Bool
  dtype : String
  dseverity : String
  description : String

/-- A vulnerability record pushed by the content-script scanner. -/
structure Vuln where
  vtype : String
  vseverity : String
  description : String
  deriving DecidableEq, Repr

/-- Matcher for `/eval\s*\(/i` at the current position. -/
def matchEval : Matcher := fun cs =>
  if ciPrefix "eval".toList cs then
    let t := cs.drop 4
    let sp := t.takeWhile isSpaceCh
    if (t.drop sp.length).headD 'x' = '(' then
      some ⟨4 + sp.length + 1, by omega⟩
    else none
  else none

/-- Matcher for `/innerHTML\s*=.*\+/i` (and the analogous
`window.location` pattern tail) at the current position: after the literal
and optional whitespace, `=`, then greedy `.*` up to the last `+` on the
line. -/
def matchAssignPlus (lit : List Char) : Matcher := fun cs =>
  if ciPrefix lit cs then
    let t := cs.drop lit.length
    let sp := t.takeWhile isSpaceCh
    let u := t.drop sp.length
    if u.headD 'x' = '=' then
      let seg := (u.drop 1).takeWhile (fun c => ¬ isNlCh c)
      match lastIdxOf '+' seg with
      | some k => some ⟨lit.length + sp.length + 1 + k + 1, by omega⟩
      | none => none
    else none
  else none

/-- Matcher for `/document\.write\(/i` at the current position. -/
def matchDocWrite : Matcher := fun cs =>
  if ciPrefix "document.write(".toList cs then some ⟨15, by omega⟩ else none

/-- Matcher for `/localStorage\.setItem\([^)]*password[^)]*\)/i` at the
current position: the literal, then the maximal run of non-`)` characters,
which must contain `password` and be followed by `)`. -/
def matchLsPassword : Matcher := fun cs =>
  if ciPrefix "localstorage.setitem(".toList cs then
    let t := cs.drop 21
    let run := t.takeWhile (fun c => c ≠ ')')
    if scanTest (fun l => if ciPrefix "password".toList l
          then some ⟨8, by omega⟩ else none) run
        && (t.drop run.length).headD 'x' = ')' then
      some ⟨21 + run.length + 1, by omega⟩
    else none
  else none

/-- Matcher for `/http:\/\/[^\/]+/i` at the current position. -/
def matchHttpPlain : Matcher := fun cs =>
  if ciPrefix "http://".toList cs then
    let run := (cs.drop 7).takeWhile (fun c => c ≠ '/')
    if run.isEmpty then none else some ⟨7 + run.length, by omega⟩
  else none

/-- Matcher for `/Math\.random\(\)/i` at the current position. -/
def matchMathRandom : Matcher := fun cs =>
  if ciPrefix "math.random()".toList cs then some ⟨13, by omega⟩ else none

/-- Content-script detector 1: `/eval\s*\(/gi`. -/
def csEval : Detector :=
  ⟨scanTest matchEval, "Code Injection", "HIGH",
    "Use of eval() detected - potential code injection risk"⟩

/-- Content-script detector 2: `/innerHTML\s*=.*\+/gi`. -/
def csInnerHTML : Detector :=
  ⟨scanTest (matchAssignPlus "innerhtml".toList), "XSS", "HIGH",
    "Dynamic innerHTML assignment - potential XSS risk"⟩

/-- Content-script detector 3: `/document\.write\(/gi`. -/
def csDocWrite : Detector :=
  ⟨scanTest matchDocWrite, "XSS", "MEDIUM",
    "document.write() usage detected - potential XSS risk"⟩

/-- The three content-script detectors, in source order. -/
def csDetectors : List Detector :=
  [csEval, csInnerHTML, csDocWrite]

/-- `scanCodeForVulnerabilities(code)`: `patterns.forEach` pushing one
record per detector whose `pattern.test(code)` is true. -/
def scanCodeForVulnerabilities (code : List Char) : List Vuln :=
  csDetectors.foldl
    (fun acc d =>
      if d.test code then acc ++ [⟨d.dtype, d.dseverity, d.description⟩]
      else acc) []

/-- The per-pass page scan of `scanPageForVulnerabilities`: every script
element with nonempty `innerHTML` is scanned and all resulting records are
concatenated; one `security` signal is then emitted per record. -/
def scanPage (scripts : List (List Char)) : List Vuln :=
  scripts.foldl
    (fun acc s => if s = [] then acc else acc ++ scanCodeForVulnerabilities s)
    []

/-- A background detector (`scanForVulnerabilities` in `background.js`):
matcher plus fixed metadata. -/
structure BgDetector where
  test : List Char → Bool
  count : List Char → Nat
  dtype : String
  dseverity : String
  description : String
  suggestion : String

/-- A vulnerability record produced by the background scanner; `matchCount`
models the source field `matches` (`code.match(pattern).length`; the name
`matches` itself is a reserved token in Lean). -/
structure BgVuln where
  vtype : String
  vseverity : String
  description : String
  suggestion : String
  matchCount : Nat
  deriving DecidableEq, Repr

/-- Background detector 1: `/eval\s*\(/gi`. -/
def bgEval : BgDetector :=
  ⟨scanTest matchEval, scanCount matchEval, "Code Injection", "HIGH",
    "Use of eval() can lead to code injection vulnerabilities",
    "Replace eval() with JSON.parse() or safer alternatives"⟩

/-- Background detector 2: `/innerHTML\s*=.*\+/gi`. -/
def bgInnerHTML : BgDetector :=
  ⟨scanTest (matchAssignPlus "innerhtml".toList),
    scanCount (matchAssignPlus "innerhtml".toList), "XSS", "HIGH",
    "Dynamic innerHTML assignment can lead to XSS attacks",
    "Use textContent or sanitize HTML input"⟩

/-- Background detector 3: `/document\.write\(/gi`. -/
def bgDocWrite : BgDetector :=
  ⟨scanTest matchDocWrite, scanCount matchDocWrite, "XSS", "MEDIUM",
    "document.write() can be exploited for XSS",
    "Use modern DOM manipulation methods"⟩

/-- Background detector 4: `/window\.location\s*=.*\+/gi`. -/
def bgWinLoc : BgDetector :=
  ⟨scanTest (matchAssignPlus "window.location".toList),
    scanCount (matchAssignPlus "window.location".toList),
    "Open Redirect", "MEDIUM",
    "Unvalidated redirects can be abused",
    "Validate URLs before redirecting"⟩

/-- Background detector 5: `/localStorage\.setItem\([^)]*password[^)]*\)/gi`. -/
def bgLsPassword : BgDetector :=
  ⟨scanTest matchLsPassword, scanCount matchLsPassword,
    "Data Exposure", "HIGH",
    "Storing passwords in localStorage is insecure",
    "Use secure authentication tokens instead"⟩

/-- Background detector 6: `/http:\/\/[^\/]+/gi`. -/
def bgHttpPlain : BgDetector :=
  ⟨scanTest matchHttpPlain, scanCount matchHttpPlain,
    "Insecure Communication", "MEDIUM",
    "Using HTTP instead of HTTPS",
    "Always use HTTPS for secure communication"⟩

/-- Background detector 7: `/Math\.random\(\)/gi`. -/
def bgMathRandom : BgDetector :=
  ⟨scanTest matchMathRandom, scanCount matchMathRandom,
    "Weak Randomness", "LOW",
    "Math.random() is not cryptographically secure",
    "Use crypto.getRandomValues() for security-sensitive operations"⟩

/-- The seven background detectors, in source order. -/
def bgDetectors : List BgDetector :=
  [bgEval, bgInnerHTML, bgDocWrite, bgWinLoc, bgLsPassword, bgHttpPlain,
   bgMathRandom]

/-- `scanForVulnerabilities(code, url)` (background): `patterns.forEach`
pushing, for each detector with a non-null `code.match(pattern)`, one record
carrying `matches.length`. -/
def scanForVulnerabilities (code : List Char) : List BgVuln :=
  bgDetectors.foldl
    (fun acc d =>
      if d.test code then
        acc ++ [⟨d.dtype, d.dseverity, d.description, d.suggestion,
                 d.count code⟩]
      else acc) []

/-! ## Theorems -/

/-! ### C1: aggregator buffer bound and FIFO eviction -/

theorem accept_length_bound (buf : List StoredError) (e : StoredError)
    (h : buf.length ≤ 200) : (accept buf e).length ≤ 200 := by
  simp only [accept]
  split
  · simp only [List.length_drop, List.length_append, List.length_cons,
      List.length_nil]
    omega
  · rename_i hc
    simp only [not_lt, List.length_append, List.length_cons, List.length_nil]
      at hc ⊢
    omega

theorem foldl_accept_bound (evs : List StoredError) :
    (evs.foldl accept []).length ≤ 200 := by
  suffices h : ∀ (buf : List StoredError), buf.length ≤ 200 →
      (evs.foldl accept buf).length ≤ 200 by
    exact h [] (by simp)
  induction evs with
  | nil => intro buf hb; simpa using hb
  | cons e t ih =>
      intro buf hb
      simpa using ih (accept buf e) (accept_length_bound buf e hb)

theorem accept_full_evicts_oldest (buf : List StoredError) (e : StoredError)
    (h : buf.length = 200) : accept buf e = buf.tail ++ [e] := by
  simp only [accept]
  have hlen : (buf ++ [e]).length = 201 := by simp [h]
  rw [if_pos (by omega), hlen]
  have h1 : (201 : Nat) - 200 = 1 := rfl
  rw [h1]
  cases buf with
  | nil => simp at h
  | cons a t => simp

theorem accept_not_full (buf : List StoredError) (e : StoredError)
    (h : buf.length < 200) : accept buf e = buf ++ [e] := by
  simp only [accept]
  rw [if_neg]
  simp only [not_lt, List.length_append, List.length_cons, List.length_nil]
  omega

/-- C1: for every sequence of accepted `ERROR_CAPTURED` signals the buffer
never exceeds 200 entries, and once the buffer is full the entry evicted by
the next accept is exactly the oldest one (the head of the buffer), for every
signal regardless of severity — strict FIFO, no priority retention. -/
theorem C1_buffer_bound_fifo :
    (∀ evs : List StoredError, (evs.foldl accept []).length ≤ 200) ∧
    (∀ (buf : List StoredError) (e : StoredError), buf.length = 200 →
      accept buf e = buf.tail ++ [e]) ∧
    (∀ (buf : List StoredError) (e : StoredError), buf.length < 200 →
      accept buf e = buf ++ [e]) :=
  ⟨foldl_accept_bound, accept_full_evicts_oldest, accept_not_full⟩

/-- Witness for C1 at concrete inputs: a full 200-entry buffer evicts its
head on the next accept, and a sequence of 201 accepts stays at length 200. -/
theorem C1_buffer_bound_fifo_witness :
    (List.foldl accept [] (List.replicate 201
        ⟨some 1, Sev.critical, "x"⟩)).length ≤ 200 ∧
    accept (List.replicate 200 ⟨some 1, Sev.critical, "x"⟩)
        ⟨some 2, Sev.info, "y"⟩ =
      (List.replicate 200 (⟨some 1, Sev.critical, "x"⟩ : StoredError)).tail ++
        [⟨some 2, Sev.info, "y"⟩] :=
  ⟨C1_buffer_bound_fifo.1 _,
   C1_buffer_bound_fifo.2.1 _ _ (by rw [List.length_replicate])⟩

/-! ### C2: invalidation removes exactly one tab scope -/

/-- C2: after the invalidation run for tab scope `T` by a navigation-start
(`loading`) event, no buffered signal has `tabId = T`; the surviving buffer is
a sublist of the original (original order preserved), and every signal whose
tab scope differs from `T` is still present. -/
theorem C2_invalidate_scope (tabId : Nat) (buf : List StoredError) :
    (∀ e ∈ (handleTabUpdated buf tabId "loading").1, e.tabId ≠ some tabId) ∧
    ((handleTabUpdated buf tabId "loading").1.Sublist buf) ∧
    (∀ e ∈ buf, e.tabId ≠ some tabId →
      e ∈ (handleTabUpdated buf tabId "loading").1) := by
  refine ⟨?_, ?_, ?_⟩
  · intro e he
    simp only [handleTabUpdated, if_true, String.reduceEq, invalidate,
      List.mem_filter, decide_eq_true_eq, reduceIte] at he
    exact he.2
  · simp only [handleTabUpdated, if_true, String.reduceEq, invalidate,
      reduceIte]
    exact List.filter_sublist buf
  · intro e he hne
    simp only [handleTabUpdated, if_true, String.reduceEq, invalidate,
      List.mem_filter, decide_eq_true_eq, reduceIte]
    exact ⟨he, hne⟩

/-- Witness for C2 at a concrete buffer: invalidating tab 1 removes exactly
the tab-1 signals and keeps the others in order. -/
theorem C2_invalidate_scope_witness :
    (∀ e ∈ (handleTabUpdated
        [⟨some 1, Sev.error, "a"⟩, ⟨some 2, Sev.error, "b"⟩,
         ⟨none, Sev.info, "c"⟩, ⟨some 1, Sev.info, "d"⟩] 1 "loading").1,
      e.tabId ≠ some 1) ∧
    (⟨some 2, Sev.error, "b"⟩ : StoredError) ∈ (handleTabUpdated
        [⟨some 1, Sev.error, "a"⟩, ⟨some 2, Sev.error, "b"⟩,
         ⟨none, Sev.info, "c"⟩, ⟨some 1, Sev.info, "d"⟩] 1 "loading").1 :=
  ⟨(C2_invalidate_scope 1 _).1,
   (C2_invalidate_scope 1 _).2.2 _ (by decide) (by decide)⟩

/-! ### C4: network severity mapping -/

/-- C4: an intercepted response with status in [400,500) yields severity
`warning`, a response with status ≥ 500 yields `error`, and a thrown
transport-level failure always yields `error` — for both the `fetch` wrapper
and the `XMLHttpRequest` wrapper. -/
theorem C4_severity_mapping (st : Nat) :
    (400 ≤ st → st < 500 →
      fetchCapture (.response st) = some Sev.warning ∧
      xhrCapture st = some Sev.warning) ∧
    (500 ≤ st →
      fetchCapture (.response st) = some Sev.error ∧
      xhrCapture st = some Sev.error) ∧
    fetchCapture .failure = some Sev.error := by
  refine ⟨?_, ?_, rfl⟩
  · intro h4 h5
    constructor
    · simp only [fetchCapture, responseOk]
      rw [if_pos, if_neg (by omega)]
      constructor
      · simp only [decide_eq_true_eq]
        omega
      · exact h4
    · simp only [xhrCapture]
      rw [if_pos h4, if_neg (by omega)]
  · intro h5
    constructor
    · simp only [fetchCapture, responseOk]
      rw [if_pos, if_pos h5]
      constructor
      · simp only [decide_eq_true_eq]
        omega
      · omega
    · simp only [xhrCapture]
      rw [if_pos (by omega), if_pos h5]

/-- Witness for C4 at the concrete statuses named by the spec: 404 and 500. -/
theorem C4_severity_mapping_witness :
    fetchCapture (.response 404) = some Sev.warning ∧
    fetchCapture (.response 500) = some Sev.error ∧
    xhrCapture 404 = some Sev.warning ∧
    xhrCapture 500 = some Sev.error :=
  ⟨((C4_severity_mapping 404).1 (by omega) (by omega)).1,
   ((C4_severity_mapping 500).2.1 (by omega)).1,
   ((C4_severity_mapping 404).1 (by omega) (by omega)).2,
   ((C4_severity_mapping 500).2.1 (by omega)).2⟩

/-! ### C6: broadcasts -/

/-- Counterexample to C6: a navigation-start (`loading`) event that really
purges a buffered signal emits no message at all — there is no
`ERROR_UPDATE`/`STATE_BROADCAST` after an invalidation, even though the
buffer changed. -/
theorem C6_no_broadcast_on_purge :
    (handleTabUpdated [⟨some 1, Sev.error, "a"⟩] 1 "loading").2 = [] ∧
    (handleTabUpdated [⟨some 1, Sev.error, "a"⟩] 1 "loading").1 ≠
      [⟨some 1, Sev.error, "a"⟩] := by
  constructor
  · rfl
  · decide

/-- C6 (amended): the aggregator sends exactly one `ERROR_UPDATE` broadcast
carrying the full signal list after every accepted signal, but never sends
any message after a purge/invalidation of a tab scope. -/
theorem C6_broadcast_after_accept_only :
    (∀ (buf : List StoredError) (e : StoredError),
      (handleErrorCaptured buf e).2 = [BMsg.errorUpdate (accept buf e)]) ∧
    (∀ (buf : List StoredError) (tabId : Nat) (status : String),
      (handleTabUpdated buf tabId status).2 = []) := by
  refine ⟨fun _ _ => rfl, fun buf tabId status => ?_⟩
  simp only [handleTabUpdated]
  split <;> rfl

/-! ### C10: the localStorage mirror -/

theorem mirrorUpdate_eq_take (prev : List StoredError) (e : StoredError) :
    mirrorUpdate prev e = (e :: prev).take 50 := by
  simp only [mirrorUpdate]
  split
  · rfl
  · rename_i hc
    rw [List.take_of_length_le]
    omega

theorem foldl_mirrorUpdate (evs : List StoredError) :
    ∀ acc : List StoredError,
      evs.foldl mirrorUpdate (acc.take 50) = (evs.reverse ++ acc).take 50 := by
  induction evs with
  | nil => intro acc; simp
  | cons a t ih =>
      intro acc
      have step : mirrorUpdate (acc.take 50) a = (a :: acc).take 50 := by
        rw [mirrorUpdate_eq_take]
        simp [List.take_take, List.take_succ_cons]
      calc (a :: t).foldl mirrorUpdate (acc.take 50)
          = t.foldl mirrorUpdate ((a :: acc).take 50) := by
            rw [List.foldl_cons, step]
        _ = (t.reverse ++ (a :: acc)).take 50 := ih (a :: acc)
        _ = ((a :: t).reverse ++ acc).take 50 := by
            simp

/-- C10: the localStorage mirror under `bugtrace-errors` receives every
captured signal, newest first, and after every capture holds exactly the (at
most) 50 most recent signals: running the captures in `evs` order leaves the
mirror equal to the reversal of `evs` truncated to its first 50 entries. -/
theorem C10_localstorage_mirror (evs : List StoredError) :
    evs.foldl mirrorUpdate [] = evs.reverse.take 50 ∧
    (evs.foldl mirrorUpdate []).length ≤ 50 := by
  have h := foldl_mirrorUpdate evs []
  simp only [List.take_nil, List.append_nil] at h
  refine ⟨h, ?_⟩
  rw [h]
  exact List.length_take_le 50 evs.reverse

/-! ### C5: per-source failure isolation in the suggestion fan-out -/

/-- C5: per-source failure isolation, for every selection of sources and
any one failing source.  First conjunct: with every selected source failing
the fan-out returns `[]` rather than throwing.  Second conjunct: for every
selection, every call table, and every source `f` that throws (or returns a
non-success response, which `getSuggestions` sees as a thrown `Error`), the
fan-out returns exactly what it returns for the same call table with `f`
removed from the selection — the remaining sources' normalized results,
untouched by the failure. -/
theorem C5_failure_isolation :
    (∀ (sources : List Src) (maxResults : Option Nat) (call : SourceCall),
      (∀ s ∈ sources, call s = .error ()) →
      getSuggestions (some sources) maxResults call = []) ∧
    (∀ (sources : List Src) (maxResults : Option Nat) (call : SourceCall)
        (f : Src), call f = .error () →
      getSuggestions (some sources) maxResults call =
        getSuggestions (some (sources.filter (fun s => s ≠ f)))
          maxResults call) := by
  constructor
  · intro sources maxResults call h
    have key : ∀ s : Src,
        (if sources.contains s then
          match call s with
          | .ok l => l
          | .error _ => []
        else []) = ([] : List Suggestion) := by
      intro s
      by_cases hs : s ∈ sources
      · rw [if_pos (by simp [List.contains, List.elem_eq_mem, hs]), h s hs]
      · rw [if_neg (by simp [List.contains, List.elem_eq_mem, hs])]
    simp only [getSuggestions, resolveSources, key, List.append_nil,
      List.take_nil]
  · intro sources maxResults call f hf
    have key : ∀ s0 : Src,
        (if (sources.filter (fun s => s ≠ f)).contains s0 then
          match call s0 with
          | .ok l => l
          | .error _ => []
        else []) =
        (if sources.contains s0 then
          match call s0 with
          | .ok l => l
          | .error _ => []
        else []) := by
      intro s0
      by_cases hs : s0 = f
      · subst hs
        rw [hf]
        simp
      · have hc : (sources.filter (fun s => s ≠ f)).contains s0 =
            sources.contains s0 := by
          by_cases hm : s0 ∈ sources
          · have hmf : s0 ∈ sources.filter (fun s => s ≠ f) :=
              List.mem_filter.mpr ⟨hm, by simpa using hs⟩
            simp [List.contains, List.elem_eq_mem, hm, hmf, hs]
          · have hmf : s0 ∉ sources.filter (fun s => s ≠ f) :=
              fun hx => hm (List.mem_filter.mp hx).1
            simp [List.contains, List.elem_eq_mem, hm, hmf]
        rw [hc]
    simp only [getSuggestions, resolveSources, key]

/-- Witness for C5 at a concrete selection and call table: github throws,
and the fan-out coincides with the github-free fan-out, namely the two
survivors' results; with every source failing it returns `[]`. -/
theorem C5_failure_isolation_witness :
    getSuggestions (some [Src.stackoverflow, Src.github, Src.mdn]) (some 10)
      (fun s => match s with
        | Src.stackoverflow => .ok [⟨"so-1", Src.stackoverflow, "a"⟩]
        | Src.github => .error ()
        | Src.mdn => .ok [⟨"mdn-1", Src.mdn, "b"⟩]) =
      getSuggestions (some ([Src.stackoverflow, Src.github, Src.mdn].filter
          (fun s => s ≠ Src.github))) (some 10)
      (fun s => match s with
        | Src.stackoverflow => .ok [⟨"so-1", Src.stackoverflow, "a"⟩]
        | Src.github => .error ()
        | Src.mdn => .ok [⟨"mdn-1", Src.mdn, "b"⟩]) ∧
    getSuggestions (some [Src.stackoverflow, Src.github, Src.mdn]) (some 10)
      (fun s => match s with
        | Src.stackoverflow => .ok [⟨"so-1", Src.stackoverflow, "a"⟩]
        | Src.github => .error ()
        | Src.mdn => .ok [⟨"mdn-1", Src.mdn, "b"⟩]) =
      [⟨"so-1", Src.stackoverflow, "a"⟩, ⟨"mdn-1", Src.mdn, "b"⟩] ∧
    getSuggestions (some [Src.stackoverflow, Src.github, Src.mdn]) (some 10)
      (fun _ => .error ()) = [] :=
  ⟨C5_failure_isolation.2 [Src.stackoverflow, Src.github, Src.mdn] (some 10)
      _ Src.github rfl,
   by decide,
   C5_failure_isolation.1 _ (some 10) _ (fun s _ => rfl)⟩

/-! ### C9: the caller's result cap -/

/-- Counterexample to C9 as stated: `maxResults` is resolved with
`options.maxResults || 10`, and `0` is falsy in JavaScript, so a caller
explicitly requesting a maximum of 0 results receives up to 10 — here 3 —
exceeding the requested maximum. -/
theorem C9_cap_counterexample :
    ¬ (getSuggestions (some [Src.stackoverflow, Src.github, Src.mdn])
        (some 0)
        (fun s => .ok [⟨"x", s, "t"⟩])).length ≤ 0 := by
  decide

/-- C9 (amended): for every positive requested maximum the returned list
never exceeds it (an explicit `maxResults = 0` falls back to the default cap
of 10 instead); in particular, requesting 5 results when the three sources
return 10 normalized results each yields exactly 5. -/
theorem C9_cap_respected :
    (∀ (sources : Option (List Src)) (call : SourceCall) (n : Nat), 0 < n →
      (getSuggestions sources (some n) call).length ≤ n) ∧
    (∀ (call : SourceCall) (A B C : List Suggestion),
      call Src.stackoverflow = .ok A → call Src.github = .ok B →
      call Src.mdn = .ok C →
      A.length = 10 → B.length = 10 → C.length = 10 →
      (getSuggestions (some [Src.stackoverflow, Src.github, Src.mdn])
        (some 5) call).length = 5) := by
  constructor
  · intro sources call n hn
    have hres : resolveMax (some n) = n := by
      match n with
      | 0 => omega
      | Nat.succ k => rfl
    simp only [getSuggestions, hres]
    exact List.length_take_le n _
  · intro call A B C hA hB hC hlA hlB hlC
    simp only [getSuggestions, resolveSources, resolveMax, hA, hB, hC]
    simp [List.length_take, hlA, hlB, hlC]

/-- Witness for C9 (amended) at a concrete call table: three sources of 10
results each, `maxResults = 5`, exactly 5 returned; and a positive cap of 2
is respected. -/
theorem C9_cap_respected_witness :
    (getSuggestions (some [Src.stackoverflow, Src.github, Src.mdn]) (some 5)
      (fun s => .ok ((List.range 10).map
        (fun i => ⟨toString i, s, "t"⟩)))).length = 5 ∧
    (getSuggestions none (some 2)
      (fun s => .ok [⟨"a", s, "t"⟩, ⟨"b", s, "t"⟩, ⟨"c", s, "t"⟩])).length
      ≤ 2 :=
  ⟨C9_cap_respected.2 _ _ _ _ rfl rfl rfl (by decide) (by decide) (by decide),
   C9_cap_respected.1 none _ 2 (by omega)⟩

/-! ### C8: instrumentation faults escape into the page -/

/-- C8 (code bug): the wrapped `console.error` does run the original console
behavior first, but `captureError` has no `try`/`catch` around its
synchronous localStorage work: when the page's own
`localStorage['bugtrace-errors']` holds malformed JSON (any string on which
the host `JSON.parse` throws), the exception escapes the wrapper into the
observed page's control flow, contradicting the claim that instrumentation
faults are always caught locally. -/
theorem C8_capture_fault_escapes (bad : String)
    (parse : String → Except Unit (List StoredError))
    (hbad : parse bad = .error ()) (args : String) :
    wrappedConsoleError (some bad) parse args = (args, .error ()) := by
  simp only [wrappedConsoleError, captureErrorRun, hbad]

/-- Witness for C8 at a concrete malformed store and a parse collaborator
that rejects it (as `JSON.parse` does on `"not json"`): the page observes
the thrown exception. -/
theorem C8_capture_fault_escapes_witness :
    wrappedConsoleError (some "not json")
      (fun _ => .error ()) "boom" = ("boom", .error ()) :=
  C8_capture_fault_escapes "not json" (fun _ => .error ()) rfl "boom"

/-! ### C7: one signal per detector -/

theorem foldl_guard_push {α β : Type} (p : α → Bool) (f : α → β)
    (l : List α) : ∀ acc : List β,
      l.foldl (fun acc d => if p d then acc ++ [f d] else acc) acc =
        acc ++ (l.filter p).map f := by
  induction l with
  | nil => intro acc; simp
  | cons a t ih =>
      intro acc
      by_cases h : p a
      · simp [h, ih]
      · simp [h, ih]

theorem scanCode_eq_filter_map (code : List Char) :
    scanCodeForVulnerabilities code =
      (csDetectors.filter (fun d => d.test code)).map
        (fun d => ⟨d.dtype, d.dseverity, d.description⟩) := by
  simpa [scanCodeForVulnerabilities] using
    foldl_guard_push (fun d : Detector => d.test code)
      (fun d => (⟨d.dtype, d.dseverity, d.description⟩ : Vuln))
      csDetectors []

theorem bgScan_eq_filter_map (code : List Char) :
    scanForVulnerabilities code =
      (bgDetectors.filter (fun d => d.test code)).map
        (fun d => ⟨d.dtype, d.dseverity, d.description, d.suggestion,
                   d.count code⟩) := by
  simpa [scanForVulnerabilities] using
    foldl_guard_push (fun d : BgDetector => d.test code)
      (fun d => (⟨d.dtype, d.dseverity, d.description, d.suggestion,
                  d.count code⟩ : BgVuln))
      bgDetectors []

theorem countP_filter_map {α β : Type} (p : α → Bool) (f : α → β)
    (q : β → Bool) (l : List α) :
    ((l.filter p).map f).countP q = l.countP (fun x => p x && q (f x)) := by
  rw [List.countP_map, List.countP_filter]
  congr 1
  funext x
  simp [Bool.and_comm]

theorem countP_and_unique {α : Type} (p q : α → Bool) (d : α) :
    ∀ l : List α, (∀ x ∈ l, q x = true → p x = p d) →
      l.countP (fun x => p x && q x) =
        if p d then l.countP q else 0 := by
  intro l
  induction l with
  | nil => simp
  | cons a t ih =>
      intro h
      rw [List.countP_cons, List.countP_cons,
        ih (fun x hx => h x (List.mem_cons_of_mem _ hx))]
      by_cases hq : q a = true
      · have hpa : p a = p d := h a (List.mem_cons_self _ _) hq
        cases hpd : p d <;> simp [hq, hpa, hpd]
      · simp only [Bool.not_eq_true] at hq
        cases hpd : p d <;> simp [hq, hpd]

/-- Counterexample to C7: in a single scan pass over a page whose script
content holds two script elements both containing `eval(`, the content
script emits two `Code Injection` signals — one per matching detector *per
script element*, not one per detector per pass (and these signals carry no
match count at all). -/
theorem C7_per_pass_counterexample :
    (scanPage ["eval(a)".toList, "eval(b)".toList]).countP
      (fun v => v.vtype == "Code Injection") = 2 := by
  decide

/-- C7 (amended): per scanned script element, each matching detector
contributes exactly one record (and a non-matching one none); the background
`scanForVulnerabilities` helper likewise emits exactly one record per
matching detector per pass over a code string, and every record it emits
carries the number of matches its detector found. -/
theorem C7_one_signal_per_detector :
    (∀ (code : List Char) (d : Detector), d ∈ csDetectors →
      (scanCodeForVulnerabilities code).countP
        (fun v => v.description == d.description) =
        if d.test code then 1 else 0) ∧
    (∀ (code : List Char) (d : BgDetector), d ∈ bgDetectors →
      (scanForVulnerabilities code).countP
        (fun v => v.description == d.description) =
        if d.test code then 1 else 0) ∧
    (∀ (code : List Char) (v : BgVuln), v ∈ scanForVulnerabilities code →
      ∃ d ∈ bgDetectors, v.description = d.description ∧
        v.matchCount = d.count code ∧ d.test code = true) := by
  refine ⟨?_, ?_, ?_⟩
  · intro code d hd
    rw [scanCode_eq_filter_map, countP_filter_map]
    rw [countP_and_unique (fun x => x.test code)
      (fun x => x.description == d.description) d csDetectors ?csuniq]
    case csuniq =>
      intro x hx hqx
      simp only [csDetectors, List.mem_cons, List.not_mem_nil, or_false]
        at hx
      simp only [csDetectors, List.mem_cons, List.not_mem_nil, or_false]
        at hd
      rcases hx with rfl | rfl | rfl <;> rcases hd with rfl | rfl | rfl <;>
        first
          | rfl
          | exact absurd hqx (by decide)
    have hone : csDetectors.countP
        (fun x => x.description == d.description) = 1 := by
      simp only [csDetectors, List.mem_cons, List.not_mem_nil, or_false]
        at hd
      rcases hd with rfl | rfl | rfl <;> decide
    rw [hone]
  · intro code d hd
    rw [bgScan_eq_filter_map, countP_filter_map]
    rw [countP_and_unique (fun x => x.test code)
      (fun x => x.description == d.description) d bgDetectors ?bguniq]
    case bguniq =>
      intro x hx hqx
      simp only [bgDetectors, List.mem_cons, List.not_mem_nil, or_false]
        at hx
      simp only [bgDetectors, List.mem_cons, List.not_mem_nil, or_false]
        at hd
      rcases hx with rfl | rfl | rfl | rfl | rfl | rfl | rfl <;>
        rcases hd with rfl | rfl | rfl | rfl | rfl | rfl | rfl <;>
        first
          | rfl
          | exact absurd hqx (by decide)
    have hone : bgDetectors.countP
        (fun x => x.description == d.description) = 1 := by
      simp only [bgDetectors, List.mem_cons, List.not_mem_nil, or_false]
        at hd
      rcases hd with rfl | rfl | rfl | rfl | rfl | rfl | rfl <;> decide
    rw [hone]
  · intro code v hv
    rw [bgScan_eq_filter_map] at hv
    rcases List.mem_map.mp hv with ⟨d, hdmem, rfl⟩
    rcases List.mem_filter.mp hdmem with ⟨hd, htest⟩
    exact ⟨d, hd, rfl, rfl, htest⟩

/-- Witness for C7 (amended) at concrete inputs: the eval detector fires
exactly once on a snippet with two `eval(` occurrences, and the background
record for it carries match count 2. -/
theorem C7_one_signal_per_detector_witness :
    (scanCodeForVulnerabilities "eval(a); eval(b)".toList).countP
      (fun v => v.description == csEval.description) = 1 ∧
    (scanForVulnerabilities "eval(a); eval(b)".toList).countP
      (fun v => v.description == bgEval.description) = 1 ∧
    ∃ d ∈ bgDetectors,
      (⟨"Code Injection", "HIGH",
        "Use of eval() can lead to code injection vulnerabilities",
        "Replace eval() with JSON.parse() or safer alternatives", 2⟩ :
          BgVuln).description = d.description ∧
      (2 : Nat) = d.count "eval(a); eval(b)".toList ∧
      d.test "eval(a); eval(b)".toList = true := by
  refine ⟨?_, ?_, ?_⟩
  · rw [C7_one_signal_per_detector.1 _ csEval (by simp [csDetectors])]
    decide
  · rw [C7_one_signal_per_detector.2.1 _ bgEval (by simp [bgDetectors])]
    decide
  · exact C7_one_signal_per_detector.2.2 "eval(a); eval(b)".toList _
      (by decide)

/-! ### C3: helper lemmas about `trimL` -/

theorem isSpaceCh_eq_false_of_word {c : Char} (h : isWordCh c = true) :
    isSpaceCh c = false := by
  by_contra hs
  simp only [Bool.not_eq_false] at hs
  simp only [isSpaceCh, Bool.decide_or, Bool.or_eq_true, decide_eq_true_eq]
    at hs
  rcases hs with ⟨rfl⟩ | ⟨rfl⟩ | ⟨rfl⟩ | ⟨rfl⟩ | ⟨rfl⟩ | ⟨rfl⟩ <;>
    simp [isWordCh, isDigitCh] at h

theorem dropWhile_cons_neg {p : Char → Bool} {a : Char} {l : List Char}
    (h : p a = false) : (a :: l).dropWhile p = a :: l := by
  simp [List.dropWhile_cons, h]

theorem dropWhile_eq_self_of_head {p : Char → Bool} {l : List Char}
    (h : ∀ a, l.head? = some a → p a = false) : l.dropWhile p = l := by
  cases l with
  | nil => rfl
  | cons a t => exact dropWhile_cons_neg (h a rfl)

theorem head?_dropWhile {p : Char → Bool} :
    ∀ {l : List Char} {a : Char}, (l.dropWhile p).head? = some a →
      p a = false := by
  intro l
  induction l with
  | nil => intro a h; simp at h
  | cons b t ih =>
      intro a h
      by_cases hb : p b
      · rw [List.dropWhile_cons, if_pos hb] at h
        exact ih h
      · rw [List.dropWhile_cons, if_neg hb] at h
        simp only [List.head?_cons, Option.some.injEq] at h
        subst h
        simpa using hb

theorem getLast?_cons_ne {a : Char} {t : List Char} (h : t ≠ []) :
    (a :: t).getLast? = t.getLast? := by
  cases t with
  | nil => exact absurd rfl h
  | cons c u => rfl

theorem getLast?_dropWhile {p : Char → Bool} :
    ∀ {l : List Char}, l.dropWhile p ≠ [] →
      (l.dropWhile p).getLast? = l.getLast? := by
  intro l
  induction l with
  | nil => intro h; simp at h
  | cons b t ih =>
      intro h
      by_cases hb : p b
      · rw [List.dropWhile_cons, if_pos hb] at h ⊢
        rw [ih h]
        have ht : t ≠ [] := by
          intro he
          rw [he] at h
          simp at h
        exact (getLast?_cons_ne ht).symm
      · rw [List.dropWhile_cons, if_neg hb]

theorem trimL_head? {l : List Char} {a : Char}
    (h : (trimL l).head? = some a) : isSpaceCh a = false := by
  unfold trimL at h
  rw [List.head?_reverse] at h
  have hne : (l.dropWhile isSpaceCh).reverse.dropWhile isSpaceCh ≠ [] := by
    intro he
    rw [he] at h
    simp at h
  rw [getLast?_dropWhile hne, List.getLast?_reverse] at h
  exact head?_dropWhile h

theorem trimL_getLast? {l : List Char} {a : Char}
    (h : (trimL l).getLast? = some a) : isSpaceCh a = false := by
  unfold trimL at h
  rw [List.getLast?_reverse] at h
  exact head?_dropWhile h

theorem trimL_eq_self {l : List Char}
    (hh : ∀ a, l.head? = some a → isSpaceCh a = false)
    (hl : ∀ a, l.getLast? = some a → isSpaceCh a = false) : trimL l = l := by
  unfold trimL
  rw [dropWhile_eq_self_of_head hh]
  rw [dropWhile_eq_self_of_head (by
    intro a ha
    rw [List.head?_reverse] at ha
    exact hl a ha)]
  exact List.reverse_reverse l

theorem trimL_idem (l : List Char) : trimL (trimL l) = trimL l :=
  trimL_eq_self (fun _ h => trimL_head? h) (fun _ h => trimL_getLast? h)

theorem head?_mem : ∀ {l : List Char} {a : Char}, l.head? = some a → a ∈ l := by
  intro l a h
  cases l with
  | nil => simp at h
  | cons b t =>
      simp only [List.head?_cons, Option.some.injEq] at h
      subst h
      exact List.mem_cons_self _ _

theorem getLast?_mem : ∀ {l : List Char} {a : Char},
    l.getLast? = some a → a ∈ l := by
  intro l
  induction l with
  | nil => intro a h; simp at h
  | cons b t ih =>
      intro a h
      cases t with
      | nil =>
          simp only [List.getLast?_singleton, Option.some.injEq] at h
          subst h
          exact List.mem_cons_self _ _
      | cons c u =>
          rw [getLast?_cons_ne (by simp)] at h
          exact List.mem_cons_of_mem _ (ih h)

/-- Trimming a nonempty all-word-character token followed by a single
space yields the token. -/
theorem trimL_word_space {et : List Char} (hne : et ≠ [])
    (hw : ∀ c ∈ et, isWordCh c = true) : trimL (et ++ [' ']) = et := by
  have h1 : (et ++ [' ']).dropWhile isSpaceCh = et ++ [' '] :=
    dropWhile_eq_self_of_head (by
      intro a ha
      rw [List.head?_append_of_ne_nil _ hne] at ha
      exact isSpaceCh_eq_false_of_word (hw a (head?_mem ha)))
  have h2 : et.reverse.dropWhile isSpaceCh = et.reverse :=
    dropWhile_eq_self_of_head (by
      intro a ha
      rw [List.head?_reverse] at ha
      exact isSpaceCh_eq_false_of_word (hw a (getLast?_mem ha)))
  unfold trimL
  rw [h1, show (et ++ [' ']).reverse = ' ' :: et.reverse by simp,
    List.dropWhile_cons, if_pos (by decide), h2, List.reverse_reverse]

/-- Trimming `token ++ ' ' :: rest` is the identity when the token is a
nonempty all-word-character list and `rest` is nonempty with a non-space
last character. -/
theorem trimL_word_mid {et r : List Char} (hne : et ≠ [])
    (hw : ∀ c ∈ et, isWordCh c = true) (hr : r ≠ [])
    (hlast : ∀ a, r.getLast? = some a → isSpaceCh a = false) :
    trimL (et ++ ' ' :: r) = et ++ ' ' :: r := by
  apply trimL_eq_self
  · intro a ha
    rw [List.head?_append_of_ne_nil _ hne] at ha
    exact isSpaceCh_eq_false_of_word (hw a (head?_mem ha))
  · intro a ha
    rw [List.getLast?_append_of_ne_nil _ (by simp)] at ha
    rw [getLast?_cons_ne hr] at ha
    exact hlast a ha

theorem trimL_cons_space (r : List Char) : trimL (' ' :: r) = trimL r := by
  unfold trimL
  rw [List.dropWhile_cons, if_pos (by decide)]

/-! ### C3: helper lemmas about `findTop`, `matchErrPrefix`, `removeFirst`,
`pull` -/

theorem findTop_eq_none {pred : Nat → Bool} :
    ∀ n : Nat, (∀ j, 1 ≤ j → j ≤ n → pred j = false) →
      findTop pred n = none := by
  intro n
  induction n with
  | zero => intro _; rfl
  | succ m ih =>
      intro h
      unfold findTop
      rw [h (m + 1) (by omega) (le_refl _)]
      simp only [Bool.false_eq_true, if_false]
      exact ih (fun j h1 h2 => h j h1 (by omega))

theorem findTop_eq_some {pred : Nat → Bool} {k : Nat} (hk : pred k = true)
    (h1 : 1 ≤ k) : ∀ n, k ≤ n → (∀ j, k < j → j ≤ n → pred j = false) →
      findTop pred n = some k := by
  intro n
  induction n with
  | zero => intro h _; omega
  | succ m ih =>
      intro hkn hmax
      unfold findTop
      by_cases he : k = m + 1
      · subst he
        rw [if_pos hk]
      · have hf : pred (m + 1) = false := hmax (m + 1) (by omega) (le_refl _)
        rw [hf]
        simp only [Bool.false_eq_true, if_false]
        exact ih (by omega) (fun j hj1 hj2 => hmax j hj1 (by omega))

theorem findTop_spec {pred : Nat → Bool} :
    ∀ {n k : Nat}, findTop pred n = some k →
      pred k = true ∧ 1 ≤ k ∧ k ≤ n := by
  intro n
  induction n with
  | zero => intro k h; simp [findTop] at h
  | succ m ih =>
      intro k h
      unfold findTop at h
      by_cases hp : pred (m + 1) = true
      · rw [if_pos hp] at h
        simp only [Option.some.injEq] at h
        subst h
        exact ⟨hp, by omega, le_refl _⟩
      · rw [if_neg hp] at h
        obtain ⟨ha, hb, hc⟩ := ih h
        exact ⟨ha, hb, by omega⟩

theorem takeWhile_eq_self_of_all {p : Char → Bool} :
    ∀ {l : List Char}, (∀ c ∈ l, p c = true) → l.takeWhile p = l := by
  intro l
  induction l with
  | nil => intro _; rfl
  | cons a t ih =>
      intro h
      rw [List.takeWhile_cons, if_pos (h a (List.mem_cons_self _ _)),
        ih (fun c hc => h c (List.mem_cons_of_mem _ hc))]

theorem takeWhile_append_stop {p : Char → Bool} {a : Char} :
    ∀ {l₁ : List Char} (l₂ : List Char), (∀ c ∈ l₁, p c = true) →
      p a = false → (l₁ ++ a :: l₂).takeWhile p = l₁ := by
  intro l₁
  induction l₁ with
  | nil =>
      intro l₂ _ ha
      rw [List.nil_append, List.takeWhile_cons, if_neg (by simp [ha])]
  | cons b t ih =>
      intro l₂ h ha
      rw [List.cons_append, List.takeWhile_cons,
        if_pos (h b (List.mem_cons_self _ _)),
        ih l₂ (fun c hc => h c (List.mem_cons_of_mem _ hc)) ha]

/-- What a successful `^(\w+Error|Error)` match yields: the token ends in
`Error`, consists of word characters, and is a prefix of the query. -/
theorem matchErr_some_spec {s et : List Char}
    (h : matchErrPrefix s = some et) :
    (∃ w, et = w ++ EL) ∧ (∀ c ∈ et, isWordCh c = true) ∧ et <+: s := by
  unfold matchErrPrefix at h
  cases hft : findTop
      (fun k => ((s.takeWhile isWordCh).drop k).take 5 == EL)
      (s.takeWhile isWordCh).length with
  | some k =>
      rw [hft] at h
      simp only [Option.some.injEq] at h
      subst h
      obtain ⟨hkpred, hk1, hkn⟩ := findTop_spec hft
      have hEL : ((s.takeWhile isWordCh).drop k).take 5 = EL := by
        simpa using hkpred
      refine ⟨⟨(s.takeWhile isWordCh).take k, ?_⟩, ?_, ?_⟩
      · rw [List.take_add, hEL]
      · intro c hc
        exact List.mem_takeWhile_imp (List.take_subset _ _ hc)
      · exact (List.take_prefix _ _).trans (List.takeWhile_prefix _)
  | none =>
      rw [hft] at h
      by_cases hel : ((s.takeWhile isWordCh).take 5 == EL) = true
      · rw [if_pos hel] at h
        simp only [Option.some.injEq] at h
        subst h
        have h5 : (s.takeWhile isWordCh).take 5 = EL := by simpa using hel
        refine ⟨⟨[], rfl⟩, by decide, ?_⟩
        rw [← h5]
        exact (List.take_prefix _ _).trans (List.takeWhile_prefix _)
      · rw [if_neg hel] at h
        cases h

/-- The converse direction used for idempotence: a query whose leading
`\w`-run is exactly a word token ending in `Error` matches, and the matched
token is that whole run. -/
theorem matchErr_of_run {s et : List Char}
    (hrun : s.takeWhile isWordCh = et) (w : List Char) (hel : et = w ++ EL) :
    matchErrPrefix s = some et := by
  unfold matchErrPrefix
  rw [hrun]
  by_cases hw : w = []
  · subst hw
    rw [List.nil_append] at hel
    subst hel
    rw [findTop_eq_none _ (by
      intro j h1 h2
      have h2' : j ≤ 5 := h2
      interval_cases j <;> decide)]
    rfl
  · subst hel
    have hlen : (w ++ EL).length = w.length + 5 := by simp [EL]
    rw [findTop_eq_some (k := w.length) ?kpred ?k1 _ ?kn ?kmax]
    case kpred =>
      simp only [List.drop_left]
      rfl
    case k1 =>
      have := List.length_pos.mpr hw
      omega
    case kn => omega
    case kmax =>
      intro j hj1 hj2
      rw [beq_eq_false_iff_ne]
      intro heq
      have hlt := congrArg List.length heq
      simp only [List.length_take, List.length_drop, hlen] at hlt
      have : EL.length = 5 := rfl
      omega
    show some ((w ++ EL).take (w.length + 5)) = some (w ++ EL)
    rw [show w.length + 5 = (w ++ EL).length from hlen.symm,
      List.take_length]

theorem removeFirst_append {pat : List Char} (rest : List Char)
    (h : pat ≠ []) : removeFirst pat (pat ++ rest) = rest := by
  cases pat with
  | nil => exact absurd rfl h
  | cons a t =>
      show removeFirst (a :: t) (a :: (t ++ rest)) = rest
      unfold removeFirst
      rw [if_pos ?pre]
      case pre =>
        rw [List.isPrefixOf_iff_prefix]
        exact List.prefix_append (a :: t) rest
      show (t ++ rest).drop t.length = rest
      exact List.drop_left t rest

theorem pull_none {s : List Char} (h : matchErrPrefix s = none) :
    pull s = s := by
  unfold pull
  rw [h]

theorem pull_some {s et : List Char} (h : matchErrPrefix s = some et) :
    pull s = et ++ ' ' :: trimL (removeFirst et s) := by
  unfold pull
  rw [h]

/-- Counterexample to C3 as stated: on the message `foo h1ttp://bar` the
digit-removal step (step 5) splices the remaining characters into the URL
`http://bar`, which the first pass leaves in the query (URL removal, step 4,
ran before digit removal) and the second pass then strips — so applying the
extractor to its own output changes it. -/
theorem C3_idempotence_counterexample :
    extractSearchQuery
        (extractSearchQuery "foo h1ttp://bar".toList ErrKind.console)
        ErrKind.console ≠
      extractSearchQuery "foo h1ttp://bar".toList ErrKind.console := by
  decide

/-- C3 (amended): the extractor is idempotent on every message whose
extracted query is a fixed point of the five cleaning replaces (no removal
splices together a new removable token) and whose first pass needed no
100-character truncation (truncation can expose a new leading error-type
token).  Equivalently: steps 6–10 alone are idempotent; the failures come
only from cleaning re-firing on its own output or from truncation. -/
theorem C3_extract_idempotent (message : List Char) (k : ErrKind)
    (h1 : clean (extractSearchQuery message k) = extractSearchQuery message k)
    (h2 : noTruncation message) :
    extractSearchQuery (extractSearchQuery message k) k =
      extractSearchQuery message k := by
  have h2' : (pull (trimL (clean message))).length ≤ 100 := h2
  have hq : extractSearchQuery message k =
      if pull (trimL (clean message)) = [] then kindChars k
      else pull (trimL (clean message)) := by
    simp only [extractSearchQuery]
    rw [if_neg (Nat.not_lt.mpr h2')]
  by_cases hp : pull (trimL (clean message)) = []
  · rw [hq, if_pos hp]
    cases k <;> decide
  · rw [hq, if_neg hp] at h1 ⊢
    have key : pull (trimL (pull (trimL (clean message)))) =
        pull (trimL (clean message)) := by
      cases hm : matchErrPrefix (trimL (clean message)) with
      | none =>
          rw [pull_none hm, trimL_idem, pull_none hm]
      | some et =>
          obtain ⟨⟨w, hel⟩, hword, hpre⟩ := matchErr_some_spec hm
          have hne : et ≠ [] := by
            rw [hel]
            simp [EL]
          obtain ⟨rest, hrest⟩ := hpre
          have hrm : removeFirst et (trimL (clean message)) = rest := by
            rw [← hrest]
            exact removeFirst_append rest hne
          have hpeq : pull (trimL (clean message)) =
              et ++ ' ' :: trimL rest := by
            rw [pull_some hm, hrm]
          by_cases hr : trimL rest = []
          · rw [hpeq, hr]
            have htw : trimL (et ++ [' ']) = et := trimL_word_space hne hword
            rw [htw]
            have hmet : matchErrPrefix et = some et :=
              matchErr_of_run (takeWhile_eq_self_of_all hword) w hel
            rw [pull_some hmet]
            have hre : removeFirst et et = [] := by
              have h0 := removeFirst_append ([] : List Char) hne
              rwa [List.append_nil] at h0
            rw [hre]
            rfl
          · rw [hpeq]
            have htw : trimL (et ++ ' ' :: trimL rest) =
                et ++ ' ' :: trimL rest :=
              trimL_word_mid hne hword hr (fun a ha => trimL_getLast? ha)
            rw [htw]
            have hmet : matchErrPrefix (et ++ ' ' :: trimL rest) = some et :=
              matchErr_of_run (takeWhile_append_stop _ hword (by decide))
                w hel
            rw [pull_some hmet, removeFirst_append _ hne, trimL_cons_space,
              trimL_idem]
    simp only [extractSearchQuery]
    rw [h1, key, if_neg (Nat.not_lt.mpr h2'), if_neg hp]

/-- Witness for C3 (amended) at the spec's own example message (with the
quoted fragment spelled without quote characters): both side conditions hold
and the extractor is idempotent there. -/
theorem C3_extract_idempotent_witness :
    (clean (extractSearchQuery
        "TypeError: Cannot read properties of undefined (reading x) at app.js:42:10".toList
        ErrKind.runtime) =
      extractSearchQuery
        "TypeError: Cannot read properties of undefined (reading x) at app.js:42:10".toList
        ErrKind.runtime) ∧
    noTruncation
      "TypeError: Cannot read properties of undefined (reading x) at app.js:42:10".toList ∧
    extractSearchQuery (extractSearchQuery
        "TypeError: Cannot read properties of undefined (reading x) at app.js:42:10".toList
        ErrKind.runtime) ErrKind.runtime =
      extractSearchQuery
        "TypeError: Cannot read properties of undefined (reading x) at app.js:42:10".toList
        ErrKind.runtime :=
  ⟨by decide, by decide,
   C3_extract_idempotent _ ErrKind.runtime (by decide) (by decide)⟩

end BugTrace
